import Mathlib

/-!
Shallow embedding of the HIF image container codec (src/src/main.rs).

The program converts PNG images to a custom container format: an 8-byte
header (width and height, each a native-endian u32, modelled here as the
fixed little-endian byte order, which makes to_ne_bytes and from_ne_bytes
mutually inverse exactly as on any single host) followed by width*height*3
raw R,G,B bytes in row-major order.  Bytes are modelled as Nat values
below 256; u32 values as Nat values below 2^32.

Modelled functions and their sources:
  convert_bytes_to_u32_ne  - main.rs lines 19-23
  convert_png_to_hif       - main.rs lines 25-47 (hifBytes is the buffer
                             built before fs::write; the image::open step
                             panics via expect on a missing file, the
                             fs::write step returns an Err via the
                             question-mark operator)
  hif_to_png               - main.rs lines 49-92 (hifParse is the header
                             parse and pixel-stream slice, lines 52-57;
                             newRasterSurfaceOk is the condition under
                             which the Skia Surface::new_raster call at
                             line 66 yields a surface, so that its unwrap
                             panics exactly when the condition fails;
                             rasterChunks is the chunks_exact(3) paint
                             loop, lines 69-81; the PNG re-encode is an
                             external library call outside the model, so
                             the model returns the dimensions together
                             with the list of issued draw_rect commands)
  compress_hif_file        - main.rs lines 94-111 (the gzip stream itself
                             is the external flate2 library; the model
                             keeps the exact loop structure and records
                             the bytes fed to the encoder)

Rust panics (expect, slice-out-of-range, integer division by zero) are
modelled by the RunResult.panic constructor; values returned through
Result are modelled by Except.
-/

namespace HIF

/-- Outcome of running a Rust function that may panic. -/
inductive RunResult (α : Type) where
  | ok (val : α) : RunResult α
  | panic (msg : String) : RunResult α
deriving DecidableEq, Repr

/-- True exactly when the run ended in a panic. -/
def RunResult.isPanic {α : Type} : RunResult α → Bool
  | .ok _ => false
  | .panic _ => true

/-- One source pixel as yielded by img.pixels(): R, G, B, A channel bytes. -/
structure Pixel where
  r : Nat
  g : Nat
  b : Nat
  a : Nat
deriving DecidableEq, Repr

/-- In-memory decoded bitmap: dimensions and the row-major pixel list
(left-to-right, top-to-bottom), the order img.pixels() iterates in. -/
structure Bitmap where
  width : Nat
  height : Nat
  pixels : List Pixel
deriving DecidableEq, Repr

/-- Wellformedness of a decoded bitmap: u32 dimensions, pixel count equal
to width*height, and u8 channel values. -/
def Bitmap.wf (B : Bitmap) : Prop :=
  B.width < 2 ^ 32 ∧ B.height < 2 ^ 32 ∧
    B.pixels.length = B.width * B.height ∧
    ∀ p ∈ B.pixels, p.r < 256 ∧ p.g < 256 ∧ p.b < 256 ∧ p.a < 256

instance (B : Bitmap) : Decidable B.wf := by
  unfold Bitmap.wf
  infer_instance

/-- u32::to_ne_bytes, with native order fixed as little-endian. -/
def u32ToNeBytes (n : Nat) : List Nat :=
  [n % 256, n / 256 % 256, n / 65536 % 256, n / 16777216 % 256]

/-- Sam::convert_bytes_to_u32_ne: copy four bytes and read them back as a
native-endian u32.  The copy_from_slice length-mismatch panic cannot fire
at either call site because both arguments are four-byte slices, so the
model is total on four-byte lists. -/
def convert_bytes_to_u32_ne (bytes : List Nat) : Nat :=
  match bytes with
  | [b0, b1, b2, b3] => b0 + b1 * 256 + b2 * 65536 + b3 * 16777216
  | _ => 0

/-- The pixel-stream bytes appended by the encode loop: for every pixel in
iteration order, its R, G and B bytes (alpha dropped). -/
def encodePixels : List Pixel → List Nat
  | [] => []
  | p :: ps => p.r :: p.g :: p.b :: encodePixels ps

/-- The complete byte buffer convert_png_to_hif builds before fs::write:
width bytes, height bytes, then the pixel stream. -/
def hifBytes (img : Bitmap) : List Nat :=
  u32ToNeBytes img.width ++ u32ToNeBytes img.height ++ encodePixels img.pixels

/-- Sam::convert_png_to_hif.  The opened argument models the result of
image::open (none when the source path does not exist or is unreadable,
which the code turns into a panic via expect); writeOk models whether
fs::write succeeds (its failure is returned as an Err). -/
def convert_png_to_hif (opened : Option Bitmap) (writeOk : Bool) :
    RunResult (Except String (List Nat)) :=
  match opened with
  | none => .panic ("File not found!")
  | some img =>
      if writeOk then .ok (.ok (hifBytes img))
      else .ok (.error ("write failed"))

/-- One RGBA color as passed to Paint::new.  The f32 channel values are
modelled as exact rationals. -/
structure Color4f where
  r : ℚ
  g : ℚ
  b : ℚ
  a : ℚ
deriving DecidableEq, Repr

/-- One canvas.draw_rect call: the 1x1 unit rectangle position and its
paint color. -/
structure PaintCmd where
  x : Nat
  y : Nat
  color : Color4f
deriving DecidableEq, Repr

/-- chunks_exact(3): the complete three-byte chunks of the stream, with a
remainder of one or two bytes dropped. -/
def chunksExact3 : List Nat → List (Nat × Nat × Nat)
  | c0 :: c1 :: c2 :: rest => (c0, c1, c2) :: chunksExact3 rest
  | _ => []

/-- The draw_rect command issued for chunk i: x = (i as u32) % width,
y = (i as u32) / width (the usize index is truncated to u32 before the
division), color components r/255, g/255, b/255 with alpha 1. -/
def paintChunk (width : Nat) (i : Nat) (c : Nat × Nat × Nat) : PaintCmd :=
  { x := i % 2 ^ 32 % width
    y := i % 2 ^ 32 / width
    color := { r := (c.1 : ℚ) / 255, g := (c.2.1 : ℚ) / 255,
               b := (c.2.2 : ℚ) / 255, a := 1 } }

/-- The enumerate() loop body applied to every chunk, i counting up from
the given start index. -/
def paintAll (width : Nat) (i : Nat) : List (Nat × Nat × Nat) → List PaintCmd
  | [] => []
  | c :: cs => paintChunk width i c :: paintAll width (i + 1) cs

/-- The paint loop of hif_to_png (lines 69-81).  When width is zero and at
least one chunk exists, the first loop iteration panics in Rust: the
remainder operator with a zero divisor. -/
def rasterChunks (width : Nat) (stream : List Nat) : RunResult (List PaintCmd) :=
  if width = 0 ∧ chunksExact3 stream ≠ [] then
    .panic ("attempt to calculate the remainder with a divisor of zero")
  else
    .ok (paintAll width 0 (chunksExact3 stream))

/-- Modelled from the spec: Surface::new_raster and ImageInfo::new are
external Skia calls absent from the repository.  The spec requires the
decode output to be a surface of exact pixel dimensions width x height,
and a raster surface exists only for positive dimensions.  ImageInfo::new
receives (width as i32, height as i32), so a header value of zero stays
zero and a value of at least 2^31 reinterprets as a negative i32; in both
cases Surface::new_raster returns None and the unwrap at line 66 panics,
before the paint loop runs. -/
def newRasterSurfaceOk (width height : Nat) : Prop :=
  0 < width ∧ width < 2 ^ 31 ∧ 0 < height ∧ height < 2 ^ 31

instance (width height : Nat) : Decidable (newRasterSurfaceOk width height) := by
  unfold newRasterSurfaceOk
  infer_instance

/-- Lines 52-57 of hif_to_png: slice contents[0..4] and contents[4..8]
(each slice panics when the buffer is too short), convert both to u32, and
take the remaining bytes as the pixel stream. -/
def hifParse (contents : List Nat) : RunResult (Nat × Nat × List Nat) :=
  if contents.length < 4 then .panic ("range end index 4 out of range")
  else if contents.length < 8 then .panic ("range end index 8 out of range")
  else .ok (convert_bytes_to_u32_ne (contents.take 4),
            convert_bytes_to_u32_ne ((contents.drop 4).take 4),
            contents.drop 8)

/-- Sam::hif_to_png applied to the container bytes read from the file:
parse the header, create the raster surface (whose unwrap panics for
zero or out-of-i32-range dimensions, before the paint loop), then run the
paint loop; the function returns the header dimensions unchanged.  Since
the surface unwrap fires first, the paint loop's remainder-by-zero panic
is unreachable from here. -/
def hif_to_png (contents : List Nat) : RunResult ((Nat × Nat) × List PaintCmd) :=
  match hifParse contents with
  | .panic m => .panic m
  | .ok (w, h, stream) =>
      if newRasterSurfaceOk w h then
        match rasterChunks w stream with
        | .panic m => .panic m
        | .ok cmds => .ok ((w, h), cmds)
      else .panic ("unwrap on a None surface")

/-- Sam::hif_to_png including the fs::read step, which panics via expect
when the file cannot be read. -/
def hif_to_png_run (file : Option (List Nat)) :
    RunResult ((Nat × Nat) × List PaintCmd) :=
  match file with
  | none => .panic ("Could not read file.")
  | some contents => hif_to_png contents

/-- One result of a reader.read call inside compress_hif_file: a chunk of
bytes (an empty chunk means end of file, count == 0), or an I/O error. -/
inductive ReadEvent where
  | chunk (data : List Nat) : ReadEvent
  | readErr : ReadEvent
deriving DecidableEq, Repr

/-- The while-let loop of compress_hif_file.  Each loop turn consumes the
next read event; an exhausted event list means read returns Ok(0).  A
count of zero breaks the loop and finish() succeeds.  A successful read
feeds the chunk to the encoder via write_all, whose failure (writeOk
false) is returned as an Err.  A read error makes the while-let pattern
fail, so the loop simply exits and finish() still returns Ok: the read
error is not propagated.  The accumulator is the plain byte sequence fed
to the gzip encoder so far. -/
def compressLoop (writeOk : Bool) : List ReadEvent → List Nat → Except String (List Nat)
  | [], acc => .ok acc
  | .readErr :: _, acc => .ok acc
  | .chunk data :: rest, acc =>
      if data = [] then .ok acc
      else if writeOk then compressLoop writeOk rest (acc ++ data)
      else .error ("write failed")

/-- Sam::compress_hif_file: run the read-compress loop from an empty
accumulator; the returned byte list is the uncompressed data fed to the
gzip encoder over the whole run. -/
def compress_hif_file (writeOk : Bool) (events : List ReadEvent) :
    Except String (List Nat) :=
  compressLoop writeOk events []

/-- The read events produced by an error-free BufReader over a file with
the given contents: chunks of at most 4096 bytes in order, then end of
file. -/
def chunkReads (bs : List Nat) : List ReadEvent :=
  if h : bs = [] then []
  else ReadEvent.chunk (bs.take 4096) :: chunkReads (bs.drop 4096)
termination_by bs.length
decreasing_by
  simp only [List.length_drop]
  have hpos : 0 < bs.length := List.length_pos.mpr h
  omega

/-! Helper lemmas shared by several claims. -/

/-- Serializing a u32 to native-endian bytes and reading it back is the
identity on values below 2^32. -/
theorem convert_u32_round (n : Nat) (h : n < 2 ^ 32) :
    convert_bytes_to_u32_ne (u32ToNeBytes n) = n := by
  simp only [u32ToNeBytes, convert_bytes_to_u32_ne]
  omega

/-- The serialized header plus stream splits back into its three regions. -/
theorem hifBytes_split (img : Bitmap) :
    (hifBytes img).take 4 = u32ToNeBytes img.width ∧
      ((hifBytes img).drop 4).take 4 = u32ToNeBytes img.height ∧
      (hifBytes img).drop 8 = encodePixels img.pixels := by
  simp only [hifBytes, u32ToNeBytes]
  refine ⟨rfl, rfl, rfl⟩

/-- The encoded pixel stream regroups into exactly the source pixels'
R, G, B triples. -/
theorem chunksExact3_encodePixels (ps : List Pixel) :
    chunksExact3 (encodePixels ps) = ps.map (fun p => (p.r, p.g, p.b)) := by
  induction ps with
  | nil => rfl
  | cons p ps ih => simp [encodePixels, chunksExact3, ih]

/-- The encode loop emits three bytes per pixel. -/
theorem encodePixels_length (ps : List Pixel) :
    (encodePixels ps).length = 3 * ps.length := by
  induction ps with
  | nil => rfl
  | cons p ps ih => simp [encodePixels, ih]; omega

/-- chunks_exact(3) yields floor(len / 3) chunks. -/
theorem chunksExact3_length : ∀ l : List Nat, (chunksExact3 l).length = l.length / 3
  | [] => rfl
  | [_] => by simp [chunksExact3]
  | [_, _] => by simp [chunksExact3]
  | c0 :: c1 :: c2 :: rest => by
      simp only [chunksExact3, List.length_cons]
      rw [chunksExact3_length rest]
      omega

/-- The paint loop issues one draw_rect per chunk. -/
theorem paintAll_length (width i : Nat) (l : List (Nat × Nat × Nat)) :
    (paintAll width i l).length = l.length := by
  induction l generalizing i with
  | nil => rfl
  | cons c cs ih => simp [paintAll, ih]

/-- Indexing into the paint loop output: chunk j painted from start index
i is paintChunk at index i + j. -/
theorem paintAll_get? (width i j : Nat) (l : List (Nat × Nat × Nat)) :
    (paintAll width i l).get? j = (l.get? j).map (paintChunk width (i + j)) := by
  induction l generalizing i j with
  | nil => simp [paintAll]
  | cons c cs ih =>
      cases j with
      | zero => simp [paintAll]
      | succ j =>
          simp only [paintAll, List.get?_cons_succ, ih]
          have : i + 1 + j = i + (j + 1) := by omega
          rw [this]

/-- An error-free chunked read run feeds exactly the file's bytes, in
order, to the gzip encoder. -/
theorem compressLoop_chunkReads (bs acc : List Nat) :
    compressLoop true (chunkReads bs) acc = .ok (acc ++ bs) := by
  rw [chunkReads]
  by_cases h : bs = []
  · simp [h, compressLoop]
  · rw [dif_neg h]
    have htake : bs.take 4096 ≠ [] := by
      simp only [ne_eq, List.take_eq_nil_iff]
      push_neg
      exact ⟨by omega, h⟩
    have hrec := compressLoop_chunkReads (bs.drop 4096) (acc ++ bs.take 4096)
    simp [compressLoop, if_neg htake, hrec, List.append_assoc,
      List.take_append_drop]
termination_by bs.length
decreasing_by
  simp only [List.length_drop]
  have hpos : 0 < bs.length := List.length_pos.mpr h
  omega

/-- The encoded buffer's total length in terms of the pixel count. -/
theorem hifBytes_length (B : Bitmap) :
    (hifBytes B).length = 8 + 3 * B.pixels.length := by
  simp [hifBytes, u32ToNeBytes, encodePixels_length]
  omega

/-! Claim theorems. -/

/-- Claim C1: for every Bitmap with width and height at least 1, parsing
the bytes built by convert_png_to_hif recovers the same width, the same
height, and the exact pixel stream, and regrouping that stream into
3-byte chunks recovers every pixel's R, G, B bytes in order; the alpha
byte does not appear. -/
theorem roundtrip_identity (B : Bitmap) (hw : 1 ≤ B.width) (hh : 1 ≤ B.height)
    (hwf : B.wf) :
    hifParse (hifBytes B) = .ok (B.width, B.height, encodePixels B.pixels) ∧
      chunksExact3 (encodePixels B.pixels) =
        B.pixels.map (fun p => (p.r, p.g, p.b)) := by
  obtain ⟨hw32, hh32, hlen, hbytes⟩ := hwf
  have hsplit := hifBytes_split B
  have hL : (hifBytes B).length = 8 + 3 * B.pixels.length := hifBytes_length B
  refine ⟨?_, chunksExact3_encodePixels B.pixels⟩
  rw [hifParse, if_neg (by omega), if_neg (by omega), hsplit.1, hsplit.2.1,
    hsplit.2.2, convert_u32_round _ hw32, convert_u32_round _ hh32]

/-- Witness for C1 at a concrete 1x1 bitmap. -/
theorem roundtrip_identity_witness :
    (1 ≤ (Bitmap.mk 1 1 [Pixel.mk 9 8 7 6]).width) ∧
      (hifParse (hifBytes (Bitmap.mk 1 1 [Pixel.mk 9 8 7 6])) =
        .ok ((Bitmap.mk 1 1 [Pixel.mk 9 8 7 6]).width,
          (Bitmap.mk 1 1 [Pixel.mk 9 8 7 6]).height,
          encodePixels (Bitmap.mk 1 1 [Pixel.mk 9 8 7 6]).pixels) ∧
        chunksExact3 (encodePixels (Bitmap.mk 1 1 [Pixel.mk 9 8 7 6]).pixels) =
          (Bitmap.mk 1 1 [Pixel.mk 9 8 7 6]).pixels.map
            (fun p => (p.r, p.g, p.b))) :=
  ⟨by decide, roundtrip_identity (Bitmap.mk 1 1 [Pixel.mk 9 8 7 6])
    (by decide) (by decide) (by decide)⟩

/-- Claim C2: the buffer built by convert_png_to_hif has length exactly
8 + width*height*3; a 1x1 bitmap encodes to exactly 11 bytes and parses
back to dimensions 1x1 with its single pixel's three channel bytes, which
regroup into that same single pixel. -/
theorem encode_length_invariant (B : Bitmap)
    (hlen : B.pixels.length = B.width * B.height) (p : Pixel) :
    (hifBytes B).length = 8 + B.width * B.height * 3 ∧
      (hifBytes (Bitmap.mk 1 1 [p])).length = 11 ∧
      hifParse (hifBytes (Bitmap.mk 1 1 [p])) = .ok (1, 1, [p.r, p.g, p.b]) ∧
      chunksExact3 [p.r, p.g, p.b] = [(p.r, p.g, p.b)] := by
  refine ⟨?_, ?_, ?_, rfl⟩
  · rw [hifBytes_length, hlen]; ring
  · rw [hifBytes_length]; rfl
  · simp [hifParse, hifBytes, u32ToNeBytes, encodePixels,
      convert_bytes_to_u32_ne]

/-- Witness for C2 at a concrete bitmap and pixel. -/
theorem encode_length_invariant_witness :
    ((Bitmap.mk 2 1 [Pixel.mk 1 2 3 4, Pixel.mk 5 6 7 8]).pixels.length =
        (Bitmap.mk 2 1 [Pixel.mk 1 2 3 4, Pixel.mk 5 6 7 8]).width *
          (Bitmap.mk 2 1 [Pixel.mk 1 2 3 4, Pixel.mk 5 6 7 8]).height) ∧
      ((hifBytes (Bitmap.mk 2 1 [Pixel.mk 1 2 3 4, Pixel.mk 5 6 7 8])).length =
          8 + (Bitmap.mk 2 1 [Pixel.mk 1 2 3 4, Pixel.mk 5 6 7 8]).width *
            (Bitmap.mk 2 1 [Pixel.mk 1 2 3 4, Pixel.mk 5 6 7 8]).height * 3 ∧
        (hifBytes (Bitmap.mk 1 1 [Pixel.mk 9 8 7 6])).length = 11 ∧
        hifParse (hifBytes (Bitmap.mk 1 1 [Pixel.mk 9 8 7 6])) =
          .ok (1, 1, [9, 8, 7]) ∧
        chunksExact3 [9, 8, 7] = [(9, 8, 7)]) :=
  ⟨by decide, encode_length_invariant
    (Bitmap.mk 2 1 [Pixel.mk 1 2 3 4, Pixel.mk 5 6 7 8]) (by decide)
    (Pixel.mk 9 8 7 6)⟩

/-- Claim C3: the 2x2 bitmap with red, green, blue, white pixels in
row-major order serializes, after the 8-byte header, to exactly the
twelve bytes 255 0 0, 0 255 0, 0 0 255, 255 255 255, and rasterizing that
stream paints red at (0,0), green at (1,0), blue at (0,1) and white at
(1,1). -/
theorem row_major_addressing :
    (hifBytes (Bitmap.mk 2 2
        [Pixel.mk 255 0 0 255, Pixel.mk 0 255 0 255,
          Pixel.mk 0 0 255 255, Pixel.mk 255 255 255 255])).drop 8 =
      [255, 0, 0, 0, 255, 0, 0, 0, 255, 255, 255, 255] ∧
      rasterChunks 2 [255, 0, 0, 0, 255, 0, 0, 0, 255, 255, 255, 255] =
        .ok [PaintCmd.mk 0 0 (Color4f.mk 1 0 0 1),
          PaintCmd.mk 1 0 (Color4f.mk 0 1 0 1),
          PaintCmd.mk 0 1 (Color4f.mk 0 0 1 1),
          PaintCmd.mk 1 1 (Color4f.mk 1 1 1 1)] := by
  constructor
  · rfl
  · norm_num [rasterChunks, chunksExact3, paintAll, paintChunk]

/-- Decoding any buffer of at least 8 bytes whose header dimensions admit
a raster surface succeeds with the header dimensions and one paint
command per complete 3-byte chunk of the trailing bytes. -/
theorem hif_to_png_ok (contents : List Nat) (h8 : 8 ≤ contents.length)
    (hsurf : newRasterSurfaceOk (convert_bytes_to_u32_ne (contents.take 4))
      (convert_bytes_to_u32_ne ((contents.drop 4).take 4))) :
    hif_to_png contents =
      .ok ((convert_bytes_to_u32_ne (contents.take 4),
        convert_bytes_to_u32_ne ((contents.drop 4).take 4)),
        paintAll (convert_bytes_to_u32_ne (contents.take 4)) 0
          (chunksExact3 (contents.drop 8))) := by
  have hp : hifParse contents =
      .ok (convert_bytes_to_u32_ne (contents.take 4),
        convert_bytes_to_u32_ne ((contents.drop 4).take 4),
        contents.drop 8) := by
    rw [hifParse, if_neg (by omega), if_neg (by omega)]
  have hw : convert_bytes_to_u32_ne (contents.take 4) ≠ 0 := by
    have h1 := hsurf.1
    omega
  have hcond : ¬ (convert_bytes_to_u32_ne (contents.take 4) = 0 ∧
      chunksExact3 (contents.drop 8) ≠ []) := fun hc => hw hc.1
  simp only [hif_to_png, hp, if_pos hsurf, rasterChunks, if_neg hcond]

/-- Counterexample to claim C4: a container declaring a 1x1 image but
carrying zero trailing pixel bytes is accepted without any decode error;
the decoder returns the header dimensions and issues no paint command
instead of failing. -/
theorem truncation_rejection_cex :
    hif_to_png [1, 0, 0, 0, 1, 0, 0, 0] = .ok ((1, 1), []) := by
  decide

/-- Claim C4 (amended): the decoder performs no length validation.  A
buffer of at least 8 bytes whose header width and height each lie
between 1 and 2^31 - 1 (the range in which the Skia surface creation
succeeds; outside it the line-66 unwrap panics before the paint loop)
and whose trailing bytes fall short of width*height*3 is accepted
without error: the decoder returns the header dimensions and paints only
the complete 3-byte chunks actually present, strictly fewer than the
declared width*height pixels, and never reads past the end of the
buffer. -/
theorem truncated_stream_accepted (contents : List Nat)
    (h8 : 8 ≤ contents.length)
    (hsurf : newRasterSurfaceOk (convert_bytes_to_u32_ne (contents.take 4))
      (convert_bytes_to_u32_ne ((contents.drop 4).take 4)))
    (hshort : contents.length - 8 <
      convert_bytes_to_u32_ne (contents.take 4) *
        convert_bytes_to_u32_ne ((contents.drop 4).take 4) * 3) :
    ∃ cmds, hif_to_png contents =
      .ok ((convert_bytes_to_u32_ne (contents.take 4),
        convert_bytes_to_u32_ne ((contents.drop 4).take 4)), cmds) ∧
      cmds.length = (contents.length - 8) / 3 ∧
      cmds.length < convert_bytes_to_u32_ne (contents.take 4) *
        convert_bytes_to_u32_ne ((contents.drop 4).take 4) := by
  refine ⟨_, hif_to_png_ok contents h8 hsurf, ?_, ?_⟩
  · rw [paintAll_length, chunksExact3_length, List.length_drop]
  · rw [paintAll_length, chunksExact3_length, List.length_drop]
    omega

/-- Witness for the amended C4 at a concrete truncated container. -/
theorem truncated_stream_accepted_witness :
    (8 ≤ ([1, 0, 0, 0, 2, 0, 0, 0, 5, 5, 5] : List Nat).length) ∧
      ∃ cmds, hif_to_png [1, 0, 0, 0, 2, 0, 0, 0, 5, 5, 5] =
        .ok ((convert_bytes_to_u32_ne
            (([1, 0, 0, 0, 2, 0, 0, 0, 5, 5, 5] : List Nat).take 4),
          convert_bytes_to_u32_ne
            ((([1, 0, 0, 0, 2, 0, 0, 0, 5, 5, 5] : List Nat).drop 4).take 4)),
          cmds) ∧
        cmds.length =
          (([1, 0, 0, 0, 2, 0, 0, 0, 5, 5, 5] : List Nat).length - 8) / 3 ∧
        cmds.length < convert_bytes_to_u32_ne
            (([1, 0, 0, 0, 2, 0, 0, 0, 5, 5, 5] : List Nat).take 4) *
          convert_bytes_to_u32_ne
            ((([1, 0, 0, 0, 2, 0, 0, 0, 5, 5, 5] : List Nat).drop 4).take 4) :=
  ⟨by decide, truncated_stream_accepted [1, 0, 0, 0, 2, 0, 0, 0, 5, 5, 5]
    (by decide) (by decide) (by decide)⟩

/-- Counterexample to claim C10: an 11-byte buffer declaring width 1 and
height 0 is not accepted without error; Surface::new_raster returns no
surface for a zero dimension, so the unwrap panics before the paint
loop. -/
theorem surface_unwrap_cex :
    (hif_to_png [1, 0, 0, 0, 0, 0, 0, 0, 9, 9, 9]).isPanic = true := by
  decide

/-- Counterexample to claim C5: a 5-byte buffer makes hif_to_png panic at
the contents[4..8] slice instead of reporting a decode error. -/
theorem short_buffer_cex :
    hif_to_png [0, 0, 0, 0, 0] = .panic ("range end index 8 out of range") := by
  decide

/-- Claim C5 (amended): for every input buffer shorter than 8 bytes the
decode operation panics (the contents[0..4] or contents[4..8] slice is out
of range); it does not return an explicit decode error, since its return
type has no error channel at all. -/
theorem short_buffer_panics (contents : List Nat) (h : contents.length < 8) :
    (hif_to_png contents).isPanic = true := by
  have hsplit : hifParse contents = .panic ("range end index 4 out of range") ∨
      hifParse contents = .panic ("range end index 8 out of range") := by
    rw [hifParse]
    by_cases h4 : contents.length < 4
    · exact Or.inl (if_pos h4)
    · rw [if_neg h4]
      exact Or.inr (if_pos (by omega))
  rcases hsplit with h1 | h1 <;> simp [hif_to_png, h1, RunResult.isPanic]

/-- Witness for the amended C5 at the empty buffer. -/
theorem short_buffer_panics_witness :
    (([] : List Nat).length < 8) ∧ (hif_to_png []).isPanic = true :=
  ⟨by decide, short_buffer_panics [] (by decide)⟩

/-- Counterexample to claim C6: on both conversion paths an unreadable or
missing source file ends in a panic (the expect calls), not in a returned
error value. -/
theorem input_not_found_cex :
    (convert_png_to_hif none true).isPanic = true ∧
      (hif_to_png_run none).isPanic = true :=
  ⟨rfl, rfl⟩

/-- Claim C6 (amended): a source path that cannot be opened panics via
expect on the encode path and on the decode path; only the fs::write step
of the encode path surfaces its failure as a returned error value, and a
successful run returns the serialized buffer. -/
theorem error_propagation (img : Bitmap) :
    convert_png_to_hif none true = .panic ("File not found!") ∧
      hif_to_png_run none = .panic ("Could not read file.") ∧
      convert_png_to_hif (some img) false = .ok (.error ("write failed")) ∧
      convert_png_to_hif (some img) true = .ok (.ok (hifBytes img)) :=
  ⟨rfl, rfl, rfl, rfl⟩

/-- Claim C7: the while-let loop of compress_hif_file swallows read
errors.  An immediate read error yields Ok with an empty stream; a read
error after one chunk yields Ok with only that chunk's bytes; by
contrast, a write failure is surfaced as a returned error.  The repo's
own signature (the function returns a Result and propagates its other
I/O errors with the question-mark operator) and the spec agree that read
errors must surface, so this is a defect in the loop. -/
theorem read_error_swallowed :
    compress_hif_file true [ReadEvent.readErr] = .ok [] ∧
      compress_hif_file true
        [ReadEvent.chunk [1, 2], ReadEvent.readErr] = .ok [1, 2] ∧
      compress_hif_file false [ReadEvent.chunk [1, 2]] =
        .error ("write failed") := by
  refine ⟨rfl, ?_, ?_⟩ <;> simp [compress_hif_file, compressLoop]

/-- Claim C8: the bytes compress_hif_file feeds to the gzip encoder over
an error-free run are exactly the container's bytes in order, so
decompressing the compressed output reproduces the container
byte-for-byte.  Modelled from the spec: the gzip stream itself lives in
the external flate2 crate, which the spec calls a generic lossless
deflate-family compressor, so it is modelled as an arbitrary pair gz,
gunzip with gunzip a left inverse of gz. -/
theorem compression_fidelity (gz gunzip : List Nat → List Nat)
    (hrt : ∀ s, gunzip (gz s) = s) (contents : List Nat) :
    ∃ fed, compress_hif_file true (chunkReads contents) = .ok fed ∧
      gunzip (gz fed) = contents := by
  refine ⟨contents, ?_, hrt contents⟩
  rw [compress_hif_file, compressLoop_chunkReads, List.nil_append]

/-- Witness for C8 with the identity codec on a concrete container. -/
theorem compression_fidelity_witness :
    ∃ fed, compress_hif_file true (chunkReads [3, 1, 4]) = .ok fed ∧
      (fun l : List Nat => l) ((fun l : List Nat => l) fed) = [3, 1, 4] :=
  compression_fidelity (fun l => l) (fun l => l) (fun s => rfl) [3, 1, 4]

/-- Claim C9: every chunk the rasterizer paints gets the color with
components exactly chunk-byte divided by 255 (as an exact linear scaling,
with no gamma or color-space transform in the formula) and alpha exactly
1. -/
theorem linear_normalization (width : Nat) (stream : List Nat)
    (hw : width ≠ 0) (j : Nat) (c : Nat × Nat × Nat)
    (hc : (chunksExact3 stream).get? j = some c) :
    ∃ cmds, rasterChunks width stream = .ok cmds ∧
      (cmds.get? j).map PaintCmd.color =
        some (Color4f.mk ((c.1 : ℚ) / 255) ((c.2.1 : ℚ) / 255)
          ((c.2.2 : ℚ) / 255) 1) := by
  refine ⟨paintAll width 0 (chunksExact3 stream),
    by rw [rasterChunks, if_neg (fun hcon => hw hcon.1)], ?_⟩
  rw [paintAll_get?, hc]
  rfl

/-- Witness for C9 at a concrete chunk. -/
theorem linear_normalization_witness :
    ((1 : Nat) ≠ 0) ∧
      ((chunksExact3 [51, 102, 255]).get? 0 = some (51, 102, 255)) ∧
      ∃ cmds, rasterChunks 1 [51, 102, 255] = .ok cmds ∧
        (cmds.get? 0).map PaintCmd.color =
          some (Color4f.mk ((((51, 102, 255) : Nat × Nat × Nat).1 : ℚ) / 255)
            ((((51, 102, 255) : Nat × Nat × Nat).2.1 : ℚ) / 255)
            ((((51, 102, 255) : Nat × Nat × Nat).2.2 : ℚ) / 255) 1) :=
  ⟨by decide, by decide,
    linear_normalization 1 [51, 102, 255] (by decide) 0 (51, 102, 255)
      (by decide)⟩

/-- Claim C10 (amended): for every input buffer of at least 8 bytes whose
header width and height each lie between 1 and 2^31 - 1, hif_to_png
never compares the pixel-stream length to width*height*3: it returns the
header's dimensions unchanged and paints exactly floor((len - 8) / 3)
pixels, silently dropping a 1- or 2-byte remainder, so streams shorter
or longer than width*height*3 are accepted without error.  A header
dimension of zero or at least 2^31 instead panics at the
Surface::new_raster unwrap, before the paint loop runs. -/
theorem decode_paints_floor_chunks (contents : List Nat)
    (h8 : 8 ≤ contents.length)
    (hsurf : newRasterSurfaceOk (convert_bytes_to_u32_ne (contents.take 4))
      (convert_bytes_to_u32_ne ((contents.drop 4).take 4))) :
    ∃ cmds, hif_to_png contents =
      .ok ((convert_bytes_to_u32_ne (contents.take 4),
        convert_bytes_to_u32_ne ((contents.drop 4).take 4)), cmds) ∧
      cmds.length = (contents.length - 8) / 3 := by
  refine ⟨_, hif_to_png_ok contents h8 hsurf, ?_⟩
  rw [paintAll_length, chunksExact3_length, List.length_drop]

/-- Witness for the amended C10 at a buffer with a 1-byte remainder. -/
theorem decode_paints_floor_chunks_witness :
    (8 ≤ ([2, 0, 0, 0, 1, 0, 0, 0, 9, 9, 9, 9] : List Nat).length) ∧
      ∃ cmds, hif_to_png [2, 0, 0, 0, 1, 0, 0, 0, 9, 9, 9, 9] =
        .ok ((convert_bytes_to_u32_ne
            (([2, 0, 0, 0, 1, 0, 0, 0, 9, 9, 9, 9] : List Nat).take 4),
          convert_bytes_to_u32_ne
            ((([2, 0, 0, 0, 1, 0, 0, 0, 9, 9, 9, 9] : List Nat).drop 4).take 4)),
          cmds) ∧
        cmds.length =
          (([2, 0, 0, 0, 1, 0, 0, 0, 9, 9, 9, 9] : List Nat).length - 8) / 3 :=
  ⟨by decide, decode_paints_floor_chunks [2, 0, 0, 0, 1, 0, 0, 0, 9, 9, 9, 9]
    (by decide) (by decide)⟩

end HIF
